import Mathlib

/-!
# gocurrency: the currency registry, `Money`, `Convert` and `String`

A shallow embedding of `currency.go`.  The Go maps are association lists read
with `List.lookup`; the decimal library, the JSON decoder and the floating-point
types are the fields of a `Lib` record; a panic is an outcome of its own.
-/

set_option autoImplicit false

namespace GoCurrency

/-! ## Data model -/

/-- Go `type Currency struct { symbol string; code string }`. -/
structure Currency where
  symbol : String
  code : String
  deriving DecidableEq, Repr

/-- Go `var CurrencyTypes = map[string]Currency{...}`, entry by entry in source order.
A Go map literal rejects a repeated constant key at compile time, so the keys are
pairwise different (`CurrencyTypes_keys_nodup`). -/
def CurrencyTypes : List (String × Currency) :=
  [ ("AUD", { code := "AUD", symbol := "$" }),
    ("BGN", { code := "BGN", symbol := "лв" }),
    ("BRL", { code := "BRL", symbol := "R$" }),
    ("CAD", { code := "CAD", symbol := "$" }),
    ("CHF", { code := "CHF", symbol := "CHF" }),
    ("CNY", { code := "CNY", symbol := "¥" }),
    ("CZK", { code := "CZK", symbol := "Kč" }),
    ("DKK", { code := "DKK", symbol := "kr" }),
    ("GBP", { code := "GBP", symbol := "£" }),
    ("HKD", { code := "HKD", symbol := "$" }),
    ("HRK", { code := "HRK", symbol := "kn" }),
    ("HUF", { code := "HUF", symbol := "Ft" }),
    ("IDR", { code := "IDR", symbol := "Rp" }),
    ("ILS", { code := "ILS", symbol := "₪" }),
    ("INR", { code := "INR", symbol := "₹" }),
    ("JPY", { code := "JPY", symbol := "¥" }),
    ("KRW", { code := "KRW", symbol := "₩" }),
    ("MXN", { code := "MXN", symbol := "$" }),
    ("MYR", { code := "MYR", symbol := "RM" }),
    ("NOK", { code := "NOK", symbol := "kr" }),
    ("NZD", { code := "NZD", symbol := "$" }),
    ("PHP", { code := "PHP", symbol := "₱" }),
    ("PLN", { code := "PLN", symbol := "zł" }),
    ("RON", { code := "RON", symbol := "lei" }),
    ("RUB", { code := "RUB", symbol := "руб" }),
    ("SEK", { code := "SEK", symbol := "kr" }),
    ("SGD", { code := "SGD", symbol := "$" }),
    ("THB", { code := "THB", symbol := "฿" }),
    ("TRY", { code := "TRY", symbol := "₺" }),
    ("USD", { code := "USD", symbol := "$" }),
    ("ZAR", { code := "ZAR", symbol := "R" }) ]

/-- Go `url = "https://api.fixer.io/latest?base=%s&symbols=%s"` applied by
`fmt.Sprintf(url, base, symbols)`: both verbs are `%s` on strings. -/
def url (base symbols : String) : String :=
  "https://api.fixer.io/latest?base=" ++ base ++ "&symbols=" ++ symbols

/-- Go index expression `m[k]` on a map: the stored value, or the zero value of
the element type when the key is absent (also on a nil map). -/
def mapIndex {V : Type} (zero : V) (m : List (String × V)) (k : String) : V :=
  (m.lookup k).getD zero

/-- Go comma-ok form `v, found := CurrencyTypes[code]`. -/
def lookupCurrency (code : String) : Option Currency :=
  CurrencyTypes.lookup code

/-- A key is three upper-case ASCII letters. -/
def isThreeUpper (s : String) : Bool :=
  s.data.length == 3 && s.data.all (fun c => decide ('A' ≤ c) && decide (c ≤ 'Z'))

/-! ## What the program takes from outside -/

/-- Go `error` values that `Money` and `Convert` return, told apart by where they
are made: `errors.New` in `currency.go`, or the `err` handed back by a library call. -/
inductive GoError where
  | errorsNew (msg : String)
  | decimalNewFromString (msg : String)
  | httpGet (msg : String)
  | ioutilReadAll (msg : String)
  | jsonUnmarshal (msg : String)
  deriving DecidableEq, Repr

/-- How a call ends: `(value, nil)`, `(MoneyObject{}, err)`, or a run-time panic. -/
inductive Outcome (α : Type) where
  | ok (value : α)
  | error (err : GoError)
  | panic
  deriving DecidableEq, Repr

/-- The Go types and library functions that `currency.go` imports and does not define:
`float32`/`float64`, `github.com/shopspring/decimal`, the bytes of a response body and
of a `json.RawMessage`, and `json.Unmarshal` at the two target types the program uses.

* `float64OfInteger n` is the `float64` whose value is the integer `n` (applied only to
  integers a `float64` holds exactly); `float64OfInteger 0` is the zero value of `float64`.
* `unmarshalObject body` is `json.Unmarshal(body, &apiObj)` for
  `apiObj map[string]*json.RawMessage`: the error, or the map it leaves in `apiObj`
  (a nil pointer is `none`; a nil map is the empty list).
* `unmarshalRates raw` is `json.Unmarshal(raw, &rates)` for `rates map[string]float64`.
* `val d` is the number a `decimal.Decimal` stands for. -/
structure Lib where
  Float32 : Type
  Float64 : Type
  Decimal : Type
  Body : Type
  RawMessage : Type
  float64OfFloat32 : Float32 → Float64
  float64OfInteger : Int → Float64
  NewFromString : String → Except String Decimal
  NewFromFloat : Float64 → Decimal
  Mul : Decimal → Decimal → Decimal
  DecimalString : Decimal → String
  val : Decimal → ℚ
  unmarshalObject : Body → Except String (List (String × Option RawMessage))
  unmarshalRates : RawMessage → Except String (List (String × Float64))

/-- What the specification assumes of the decimal library: multiplication is exact, and
an integer-valued `float64` up to `2^53` in magnitude converts to that integer. -/
structure Lib.Exact (L : Lib) : Prop where
  mul_val : ∀ a b, L.val (L.Mul a b) = L.val a * L.val b
  newFromFloat_integer : ∀ n : Int, n.natAbs ≤ 2 ^ 53 →
    L.val (L.NewFromFloat (L.float64OfInteger n)) = (n : ℚ)

/-- Go `type MoneyObject struct { money decimal.Decimal; currency Currency }`. -/
structure MoneyObject (L : Lib) where
  money : L.Decimal
  currency : Currency

/-- The `value interface{}` argument of `Money`, by dynamic type: the four cases of the
type switch, and `other` for a value of any other dynamic type (a map, a bool, `nil`,
an `int64`, ...), named by its type. -/
inductive Value (L : Lib) where
  | string (v : String)
  | float32 (v : L.Float32)
  | float64 (v : L.Float64)
  | int (v : Int)
  | other (goType : String)

/-- The range of Go `int` on a 64-bit platform. -/
def isInt64 (v : Int) : Prop := -(2 : Int) ^ 63 ≤ v ∧ v < (2 : Int) ^ 63

/-- Number of times `n` is halved before it is below `2^53`. -/
def halvings : Nat → Nat → Nat
  | 0, _ => 0
  | fuel + 1, n => if n < 2 ^ 53 then 0 else halvings fuel (n / 2) + 1

/-- The integer value of the Go conversion `float64(v)` of an `int`: `v` rounded to a
53-bit significand, ties to even (IEEE 754 round-to-nearest-even). -/
def roundToFloat64 (v : Int) : Int :=
  let n := v.natAbs
  let e := halvings n n
  let q := n / 2 ^ e
  let r := n % 2 ^ e
  let up := decide (2 ^ e < 2 * r) || (decide (2 * r = 2 ^ e) && decide (q % 2 = 1))
  Int.sign v * (((if up then q + 1 else q) * 2 ^ e : Nat) : Int)

/-- Go `float64(v)` for `v int`. -/
def float64OfInt (L : Lib) (v : Int) : L.Float64 :=
  L.float64OfInteger (roundToFloat64 v)

/-- What `http.Get(url)` followed by `ioutil.ReadAll(resp.Body)` gives for one request. -/
inductive HttpResult (Body : Type) where
  | getError (msg : String)
  | readError (msg : String)
  | body (bytes : Body)

/-- The outcome of a call together with the URLs it requested, in order. -/
structure Run (α : Type) where
  outcome : Outcome α
  requests : List String

/-! ## The program -/

/-- Go `func Money(value interface{}, code string) (MoneyObject, error)`. -/
def Money (L : Lib) (value : Value L) (code : String) : Outcome (MoneyObject L) :=
  match lookupCurrency code with
  | none => .error (.errorsNew "Code not found.")
  | some currency =>
    match value with
    | .string v =>
      match L.NewFromString v with
      | .error err => .error (.decimalNewFromString err)
      | .ok m => .ok { money := m, currency := currency }
    | .float32 v => .ok { money := L.NewFromFloat (L.float64OfFloat32 v), currency := currency }
    | .float64 v => .ok { money := L.NewFromFloat v, currency := currency }
    | .int v => .ok { money := L.NewFromFloat (float64OfInt L v), currency := currency }
    | .other _ => .error (.errorsNew "Value could not be translated.")

/-- Go `func (m MoneyObject) Convert(code string) (MoneyObject, error)`, run against a
rate provider that answers the request for a URL.  `*apiObj["rates"]` dereferences the
pointer stored in the map: a nil pointer there is a run-time panic. -/
def MoneyObject.Convert (L : Lib) (provider : String → HttpResult L.Body)
    (m : MoneyObject L) (code : String) : Run (MoneyObject L) :=
  match lookupCurrency code with
  | none => { outcome := .error (.errorsNew "Code not found."), requests := [] }
  | some currency =>
    let request := url m.currency.code code
    match provider request with
    | .getError err => { outcome := .error (.httpGet err), requests := [request] }
    | .readError err => { outcome := .error (.ioutilReadAll err), requests := [request] }
    | .body body =>
      match L.unmarshalObject body with
      | .error err => { outcome := .error (.jsonUnmarshal err), requests := [request] }
      | .ok apiObj =>
        match mapIndex none apiObj "rates" with
        | none => { outcome := .panic, requests := [request] }
        | some raw =>
          match L.unmarshalRates raw with
          | .error err => { outcome := .error (.jsonUnmarshal err), requests := [request] }
          | .ok rates =>
            let conversionRate := mapIndex (L.float64OfInteger 0) rates code
            { outcome := .ok { money := L.Mul m.money (L.NewFromFloat conversionRate),
                               currency := currency },
              requests := [request] }

/-- Go `func (m MoneyObject) String() string`: `fmt.Sprintf("%s%s", symbol, money)`, where
`%s` on a `decimal.Decimal` prints its `String()`. -/
def MoneyObject.String {L : Lib} (m : MoneyObject L) : String :=
  m.currency.symbol ++ L.DecimalString m.money

/-! ## A reference library

One concrete `Lib`, small enough to evaluate: decimals are `value * 10 ^ exp` as in
shopspring/decimal, a float is named by its shortest decimal text (what
`strconv.FormatFloat(f, 'f', -1, 64)` prints), and a response body is a parsed JSON
document or not valid JSON at all. -/

/-- A decimal number `value * 10 ^ exp`. -/
structure Dec where
  value : Int
  exp : Int
  deriving DecidableEq, Repr

/-- The rational number a `Dec` stands for. -/
def Dec.val (d : Dec) : ℚ := (d.value : ℚ) * (10 : ℚ) ^ d.exp

/-- Exact product: the values multiply and the exponents add. -/
def Dec.mul (a b : Dec) : Dec := { value := a.value * b.value, exp := a.exp + b.exp }

/-- Decimal digits of a natural number, most significant first. -/
def natDigits : Nat → Nat → List Char
  | 0, _ => []
  | fuel + 1, n =>
    if n < 10 then [Char.ofNat (48 + n)]
    else natDigits fuel (n / 10) ++ [Char.ofNat (48 + n % 10)]

/-- Drop the zeros at the end of a fractional part. -/
def trimZeros (cs : List Char) : List Char :=
  (cs.reverse.dropWhile (fun c => c == '0')).reverse

/-- Text of a `Dec` without exponent and without trailing fractional zeros. -/
def Dec.render (d : Dec) : String :=
  let sign := if d.value < 0 then "-" else ""
  let n := d.value.natAbs
  if 0 ≤ d.exp then
    sign ++ String.mk (natDigits (n * 10 ^ d.exp.toNat + 1) (n * 10 ^ d.exp.toNat))
  else
    let k := (-d.exp).toNat
    let whole := natDigits (n + 1) (n / 10 ^ k)
    let digits := natDigits (n + 1) (n % 10 ^ k)
    let frac := trimZeros (List.replicate (k - digits.length) '0' ++ digits)
    if frac.isEmpty then sign ++ String.mk whole
    else sign ++ String.mk whole ++ "." ++ String.mk frac

/-- Value of a non-empty run of decimal digits. -/
def digitsToNat (cs : List Char) : Option Nat :=
  if cs.isEmpty || !cs.all (fun c => decide ('0' ≤ c) && decide (c ≤ '9')) then none
  else some (cs.foldl (fun acc c => 10 * acc + (c.toNat - 48)) 0)

/-- Read an optionally signed decimal literal `digits[.digits]`. -/
def Dec.parse (s : String) : Except String Dec :=
  let cs := s.data
  let negative := cs.head? == some '-'
  let unsigned := if negative || cs.head? == some '+' then cs.tail else cs
  let whole := unsigned.takeWhile (fun c => c != '.')
  let frac := (unsigned.dropWhile (fun c => c != '.')).drop 1
  match digitsToNat (whole ++ frac) with
  | some n => .ok { value := if negative then -(n : Int) else (n : Int),
                    exp := -(frac.length : Int) }
  | none => .error ("can't convert " ++ s ++ " to decimal")

/-- A parsed JSON document. -/
inductive Json where
  | null
  | bool (b : Bool)
  | number (literal : Dec)
  | string (s : String)
  | array (items : List Json)
  | object (members : List (String × Json))

/-- The pointer `json.Unmarshal` stores for one member of a
`map[string]*json.RawMessage`: nil for the JSON `null`, else the member's raw text. -/
def rawPointer (v : Json) : Option Json :=
  match v with
  | .null => none
  | v => some v

/-- Reference `json.Unmarshal(body, &apiObj)`: a syntax error for a body that is not JSON,
no change (a nil map) for `null`, one entry per member for an object (a later member
replaces an earlier one of the same name), a type error for any other document. -/
def refUnmarshalObject (body : Option Json) :
    Except String (List (String × Option Json)) :=
  match body with
  | none => .error "invalid character looking for beginning of value"
  | some .null => .ok []
  | some (.object members) => .ok (members.reverse.map (fun kv => (kv.1, rawPointer kv.2)))
  | some _ => .error "json: cannot unmarshal into Go value of type map[string]*json.RawMessage"

/-- The `float64` stored for one member of a `map[string]float64`: the number, the zero
value for `null`, nothing for a member of another kind (a type error). -/
def rateOf (v : Json) : Option Dec :=
  match v with
  | .number literal => some literal
  | .null => some { value := 0, exp := 0 }
  | _ => none

/-- Decode the members of a rates object, failing on the first member that is no number. -/
def decodeRates : List (String × Json) → Option (List (String × Dec))
  | [] => some []
  | (k, v) :: rest =>
    match rateOf v, decodeRates rest with
    | some r, some rs => some ((k, r) :: rs)
    | _, _ => none

/-- Reference `json.Unmarshal(raw, &rates)`. -/
def refUnmarshalRates (raw : Json) : Except String (List (String × Dec)) :=
  match raw with
  | .null => .ok []
  | .object members =>
    match decodeRates members.reverse with
    | some rates => .ok rates
    | none => .error "json: cannot unmarshal into Go value of type float64"
  | _ => .error "json: cannot unmarshal into Go value of type map[string]float64"

/-- The reference library. -/
def refLib : Lib where
  Float32 := Dec
  Float64 := Dec
  Decimal := Dec
  Body := Option Json
  RawMessage := Json
  float64OfFloat32 := id
  float64OfInteger := fun n => { value := n, exp := 0 }
  NewFromString := Dec.parse
  NewFromFloat := id
  Mul := Dec.mul
  DecimalString := Dec.render
  val := Dec.val
  unmarshalObject := refUnmarshalObject
  unmarshalRates := refUnmarshalRates

/-- A rate provider that answers every request with the same body. -/
def stubProvider (body : Option Json) : String → HttpResult refLib.Body :=
  fun _ => .body body

/-- The reference value `10 USD`. -/
def tenUSD : MoneyObject refLib :=
  { money := { value := 10, exp := 0 }, currency := { code := "USD", symbol := "$" } }

/-! ## Shared lemmas -/

theorem lookup_some_mem {V : Type} (l : List (String × V)) (k : String) (v : V)
    (h : l.lookup k = some v) : (k, v) ∈ l := by
  induction l with
  | nil => simp at h
  | cons p rest ih =>
    obtain ⟨k0, v0⟩ := p
    by_cases hk : k = k0
    · subst hk
      simp [List.lookup] at h
      simp [h]
    · have hne : (k == k0) = false := by simpa using hk
      rw [List.lookup, hne] at h
      exact List.mem_cons_of_mem _ (ih h)

theorem CurrencyTypes_code_eq_key :
    CurrencyTypes.all (fun p => decide (p.2.code = p.1)) = true := by
  decide

theorem lookupCurrency_code (c : String) (cur : Currency)
    (h : lookupCurrency c = some cur) : cur.code = c := by
  have hmem := lookup_some_mem CurrencyTypes c cur h
  have hall := List.all_eq_true.mp CurrencyTypes_code_eq_key (c, cur) hmem
  simpa using hall

theorem CurrencyTypes_keys_nodup : (CurrencyTypes.map Prod.fst).Nodup := by
  decide

theorem halvings_of_lt (fuel n : Nat) (h : n < 2 ^ 53) : halvings fuel n = 0 := by
  cases fuel with
  | zero => rfl
  | succ k =>
    simp only [halvings]
    rw [if_pos h]

theorem roundToFloat64_exact (v : Int) (h : v.natAbs ≤ 2 ^ 53) : roundToFloat64 v = v := by
  rcases Nat.lt_or_eq_of_le h with hlt | heq
  · unfold roundToFloat64
    simp only [halvings_of_lt _ _ hlt, pow_zero, Nat.div_one, Nat.mod_one, Nat.mul_zero,
      Nat.mul_one]
    simp [Int.sign_mul_abs]
  · rcases Int.natAbs_eq v with hv | hv
    · rw [hv, heq]; decide
    · rw [hv, heq]; decide

theorem refLib_exact : refLib.Exact where
  mul_val := by
    intro a b
    show Dec.val (Dec.mul a b) = Dec.val a * Dec.val b
    simp only [Dec.val, Dec.mul]
    rw [zpow_add₀ (by norm_num : (10 : ℚ) ≠ 0)]
    push_cast
    ring
  newFromFloat_integer := by
    intro n _
    show Dec.val { value := n, exp := 0 } = (n : ℚ)
    simp [Dec.val]

theorem unknown_code_Money_error (L : Lib) (v : Value L) (code : String)
    (h : lookupCurrency code = none) :
    Money L v code = .error (.errorsNew "Code not found.") := by
  unfold Money
  rw [h]

theorem unknown_code_Convert_error (L : Lib) (provider : String → HttpResult L.Body)
    (m : MoneyObject L) (code : String) (h : lookupCurrency code = none) :
    (m.Convert L provider code).outcome = .error (.errorsNew "Code not found.") := by
  unfold MoneyObject.Convert
  rw [h]

/-! ## Claims about the registry -/

/-- C6: for a code `c` that is a key of the registry, the currency stored under `c` has
code `c`, and every `MoneyObject` that `Money(v, c)` or `Convert(c)` returns without error
carries a currency whose code is `c`. -/
theorem registry_code_is_key (c : String) (cur : Currency)
    (h : lookupCurrency c = some cur) :
    cur.code = c ∧
    (∀ (L : Lib) (v : Value L) (m : MoneyObject L),
      Money L v c = .ok m → m.currency.code = c) ∧
    (∀ (L : Lib) (provider : String → HttpResult L.Body) (m0 m : MoneyObject L),
      (m0.Convert L provider c).outcome = .ok m → m.currency.code = c) := by
  have hc := lookupCurrency_code c cur h
  refine ⟨hc, ?_, ?_⟩
  · intro L v m hm
    unfold Money at hm
    rw [h] at hm
    cases v with
    | string s =>
      simp only at hm
      split at hm
      · cases hm
      · cases hm; exact hc
    | float32 f => cases hm; exact hc
    | float64 f => cases hm; exact hc
    | int n => cases hm; exact hc
    | other t => cases hm
  · intro L provider m0 m hm
    unfold MoneyObject.Convert at hm
    rw [h] at hm
    simp only at hm
    split at hm
    · cases hm
    · cases hm
    · split at hm
      · cases hm
      · split at hm
        · cases hm
        · split at hm
          · cases hm
          · cases hm; exact hc

theorem registry_code_is_key_witness :
    lookupCurrency "GBP" = some { code := "GBP", symbol := "£" } ∧
    (({ code := "GBP", symbol := "£" } : Currency).code = "GBP" ∧
    (∀ (L : Lib) (v : Value L) (m : MoneyObject L),
      Money L v "GBP" = .ok m → m.currency.code = "GBP") ∧
    (∀ (L : Lib) (provider : String → HttpResult L.Body) (m0 m : MoneyObject L),
      (m0.Convert L provider "GBP").outcome = .ok m → m.currency.code = "GBP")) :=
  ⟨by decide, registry_code_is_key "GBP" { code := "GBP", symbol := "£" } (by decide)⟩

/-- C10 as stated fails: the registry does not have 30 entries. -/
theorem registry_size_not_30 : ¬ (CurrencyTypes.length = 30) := by
  decide

/-- C10, amended: the registry has exactly 31 entries, its keys are pairwise different,
and every key is three upper-case letters. -/
theorem registry_has_31_entries :
    CurrencyTypes.length = 31 ∧
    (CurrencyTypes.map Prod.fst).Nodup ∧
    CurrencyTypes.all (fun p => isThreeUpper p.1) = true := by
  refine ⟨by decide, by decide, by decide⟩

/-! ## Claims about unknown codes -/

/-- C2: for a code that is not a key of the registry, `Money(v, code)` fails with
"Code not found." whatever the value `v` is, and so never with the error of the decimal
parser or with "Value could not be translated.". -/
theorem Money_unknown_code (L : Lib) (v : Value L) (code : String)
    (h : lookupCurrency code = none) :
    Money L v code = .error (.errorsNew "Code not found.") ∧
    Money L v code ≠ .error (.errorsNew "Value could not be translated.") ∧
    (∀ e, Money L v code ≠ .error (.decimalNewFromString e)) := by
  have hm : Money L v code = .error (.errorsNew "Code not found.") := by
    unfold Money
    rw [h]
  refine ⟨hm, ?_, ?_⟩
  · rw [hm]
    intro hcontra
    injection hcontra with h1
    injection h1 with h2
    exact absurd h2 (by decide)
  · intro e
    rw [hm]
    intro hcontra
    injection hcontra with h1
    cases h1

theorem Money_unknown_code_witness :
    lookupCurrency "XXX" = none ∧
    (Money refLib (.string "abc") "XXX" = .error (.errorsNew "Code not found.") ∧
    Money refLib (.string "abc") "XXX" ≠ .error (.errorsNew "Value could not be translated.") ∧
    (∀ e, Money refLib (.string "abc") "XXX" ≠ .error (.decimalNewFromString e))) :=
  ⟨by decide, Money_unknown_code refLib (.string "abc") "XXX" (by decide)⟩

/-- C4: for a code that is not a key of the registry, `Convert(code)` fails with
"Code not found." and requests nothing, whatever the rate provider would answer. -/
theorem Convert_unknown_code (L : Lib) (provider : String → HttpResult L.Body)
    (m : MoneyObject L) (code : String) (h : lookupCurrency code = none) :
    (m.Convert L provider code).outcome = .error (.errorsNew "Code not found.") ∧
    (m.Convert L provider code).requests = [] ∧
    (m.Convert L provider code).requests.length = 0 := by
  unfold MoneyObject.Convert
  rw [h]
  exact ⟨rfl, rfl, rfl⟩

theorem Convert_unknown_code_witness :
    lookupCurrency "XXX" = none ∧
    ((tenUSD.Convert refLib (fun _ => .getError "dial tcp: no route") "XXX").outcome
      = .error (.errorsNew "Code not found.") ∧
    (tenUSD.Convert refLib (fun _ => .getError "dial tcp: no route") "XXX").requests = [] ∧
    (tenUSD.Convert refLib (fun _ => .getError "dial tcp: no route") "XXX").requests.length
      = 0) :=
  ⟨by decide, Convert_unknown_code refLib _ tenUSD "XXX" (by decide)⟩

/-! ## Claims about the value of `Money` -/

/-- C8: for a code in the registry, `Money(v, code)` fails with "Value could not be
translated." exactly when the dynamic type of `v` is none of string, float32, float64 and
int; for a string it fails exactly when the decimal parser fails, and then with the
error of the parser; for a float32, a float64 and an int it returns no error. -/
theorem Money_value_cases (L : Lib) (code : String) (cur : Currency)
    (h : lookupCurrency code = some cur) :
    (∀ v : Value L, Money L v code = .error (.errorsNew "Value could not be translated.")
      ↔ ∃ t, v = .other t) ∧
    (∀ s e, Money L (.string s) code = .error (.decimalNewFromString e)
      ↔ L.NewFromString s = .error e) ∧
    (∀ s, (∃ err, Money L (.string s) code = .error err)
      ↔ ∃ e, L.NewFromString s = .error e) ∧
    (∀ s d, L.NewFromString s = .ok d →
      Money L (.string s) code = .ok { money := d, currency := cur }) ∧
    (∀ f, ∃ m, Money L (.float32 f) code = .ok m) ∧
    (∀ f, ∃ m, Money L (.float64 f) code = .ok m) ∧
    (∀ n, ∃ m, Money L (.int n) code = .ok m) := by
  refine ⟨?_, ?_, ?_, ?_, ?_, ?_, ?_⟩
  · intro v
    cases v with
    | string s =>
      unfold Money
      rw [h]
      simp only
      constructor
      · intro hm
        split at hm
        · injection hm with h1
          cases h1
        · cases hm
      · rintro ⟨t, ht⟩
        cases ht
    | float32 f =>
      unfold Money
      rw [h]
      constructor
      · intro hm
        cases hm
      · rintro ⟨t, ht⟩
        cases ht
    | float64 f =>
      unfold Money
      rw [h]
      constructor
      · intro hm
        cases hm
      · rintro ⟨t, ht⟩
        cases ht
    | int n =>
      unfold Money
      rw [h]
      constructor
      · intro hm
        cases hm
      · rintro ⟨t, ht⟩
        cases ht
    | other t =>
      unfold Money
      rw [h]
      exact ⟨fun _ => ⟨t, rfl⟩, fun _ => rfl⟩
  · intro s e
    unfold Money
    rw [h]
    simp only
    constructor
    · intro hm
      split at hm
      · rename_i err herr
        injection hm with h1
        injection h1 with h2
        rw [herr, h2]
      · cases hm
    · intro hs
      rw [hs]
  · intro s
    unfold Money
    rw [h]
    simp only
    constructor
    · rintro ⟨err, hm⟩
      split at hm
      · rename_i e he
        exact ⟨e, he⟩
      · cases hm
    · rintro ⟨e, he⟩
      rw [he]
      exact ⟨_, rfl⟩
  · intro s d hs
    unfold Money
    rw [h]
    simp only
    rw [hs]
  · intro f
    unfold Money
    rw [h]
    exact ⟨_, rfl⟩
  · intro f
    unfold Money
    rw [h]
    exact ⟨_, rfl⟩
  · intro n
    unfold Money
    rw [h]
    exact ⟨_, rfl⟩

theorem Money_value_cases_witness :
    lookupCurrency "USD" = some { code := "USD", symbol := "$" } ∧
    (Money refLib (.other "map[string]int") "USD"
        = .error (.errorsNew "Value could not be translated.")
      ↔ ∃ t, (Value.other "map[string]int" : Value refLib) = .other t) ∧
    (Money refLib (.string "abc") "USD"
        = .error (.decimalNewFromString "can't convert abc to decimal")
      ↔ refLib.NewFromString "abc" = .error "can't convert abc to decimal") ∧
    (∃ m, Money refLib (.int 7) "USD" = .ok m) :=
  have hw := Money_value_cases refLib "USD" { code := "USD", symbol := "$" } (by decide)
  ⟨by decide, hw.1 (.other "map[string]int"),
    hw.2.1 "abc" "can't convert abc to decimal", hw.2.2.2.2.2.2 7⟩

theorem Money_int_eq (L : Lib) (v : Int) (code : String) (cur : Currency)
    (h : lookupCurrency code = some cur) :
    Money L (.int v) code
      = .ok { money := L.NewFromFloat (L.float64OfInteger (roundToFloat64 v)),
              currency := cur } := by
  unfold Money
  rw [h]
  rfl

/-- C9 as stated fails: `Money(9007199254740993, "USD")` has the amount of
`9007199254740992`, because the int goes through `float64`; in no decimal library
whatever do the amounts of all 64-bit ints equal the ints. -/
theorem Money_int_not_exact :
    Money refLib (.int 9007199254740993) "USD"
      = .ok { money := { value := 9007199254740992, exp := 0 },
              currency := { code := "USD", symbol := "$" } } ∧
    ¬ ∃ L : Lib, ∀ v : Int, isInt64 v →
      ∃ m, Money L (.int v) "USD" = .ok m ∧ L.val m.money = (v : ℚ) := by
  have hUSD : lookupCurrency "USD" = some { code := "USD", symbol := "$" } := by decide
  have hr1 : roundToFloat64 9007199254740993 = 9007199254740992 := by decide
  have hr2 : roundToFloat64 9007199254740992 = 9007199254740992 := by decide
  constructor
  · rw [Money_int_eq refLib _ "USD" _ hUSD, hr1]
    rfl
  · rintro ⟨L, hL⟩
    obtain ⟨m1, hm1, hv1⟩ := hL 9007199254740993 (by unfold isInt64; decide)
    obtain ⟨m2, hm2, hv2⟩ := hL 9007199254740992 (by unfold isInt64; decide)
    rw [Money_int_eq L _ "USD" _ hUSD, hr1] at hm1
    rw [Money_int_eq L _ "USD" _ hUSD, hr2] at hm2
    have hmm : m1 = m2 := by
      injection hm1 with h1
      injection hm2 with h2
      rw [← h1, ← h2]
    rw [hmm, hv2] at hv1
    norm_num at hv1

/-- C9, amended: for a code in the registry, `Money(v, code)` on an int `v` succeeds with
the amount `NewFromFloat(float64(v))`, where `float64(v)` is `v` rounded to a 53-bit
significand; when `|v| ≤ 2^53` and the decimal library is exact, that amount equals `v`. -/
theorem Money_int_amount (L : Lib) (v : Int) (code : String) (cur : Currency)
    (h : lookupCurrency code = some cur) :
    Money L (.int v) code
      = .ok { money := L.NewFromFloat (L.float64OfInteger (roundToFloat64 v)),
              currency := cur } ∧
    (v.natAbs ≤ 2 ^ 53 → L.Exact →
      L.val (L.NewFromFloat (L.float64OfInteger (roundToFloat64 v))) = (v : ℚ)) := by
  refine ⟨Money_int_eq L v code cur h, ?_⟩
  intro hv hL
  rw [roundToFloat64_exact v hv]
  exact hL.newFromFloat_integer v hv

theorem Money_int_amount_witness :
    lookupCurrency "USD" = some { code := "USD", symbol := "$" } ∧
    (-9007199254740992 : Int).natAbs ≤ 2 ^ 53 ∧ refLib.Exact ∧
    Money refLib (.int (-9007199254740992)) "USD"
      = .ok { money := refLib.NewFromFloat
                (refLib.float64OfInteger (roundToFloat64 (-9007199254740992))),
              currency := { code := "USD", symbol := "$" } } ∧
    refLib.val (refLib.NewFromFloat
        (refLib.float64OfInteger (roundToFloat64 (-9007199254740992))))
      = ((-9007199254740992 : Int) : ℚ) :=
  have hw := Money_int_amount refLib (-9007199254740992) "USD"
    { code := "USD", symbol := "$" } (by decide)
  ⟨by decide, by decide, refLib_exact, hw.1, hw.2 (by decide) refLib_exact⟩

/-! ## Claims about `EUR` and `String` -/

/-- C7 as stated fails: "EUR" is not a key of the registry, no entry has the symbol "€",
`Money(3.14, "EUR")` fails with "Code not found." and so does `Convert("EUR")` on a USD
value, without a request. -/
theorem EUR_not_in_registry :
    lookupCurrency "EUR" = none ∧
    CurrencyTypes.all (fun p => p.2.symbol != "€") = true ∧
    Money refLib (.float64 { value := 314, exp := -2 }) "EUR"
      = .error (.errorsNew "Code not found.") ∧
    (tenUSD.Convert refLib
        (stubProvider (some (.object [("rates", .object [("EUR", .number ⟨5, -1⟩)])])))
        "EUR").outcome
      = .error (.errorsNew "Code not found.") := by
  refine ⟨by decide, by decide, ?_, ?_⟩
  · exact (unknown_code_Money_error refLib _ "EUR" (by decide))
  · exact (unknown_code_Convert_error refLib _ tenUSD "EUR" (by decide))

/-- C7, amended: "EUR" is not a key of the registry, so `Money(v, "EUR")` and
`Convert("EUR")` fail with "Code not found."; for a code that is in the registry,
`Money(f, code)` on a float64 succeeds and its `String()` is the symbol of the entry
immediately followed by the text of the amount. -/
theorem String_is_symbol_then_amount (L : Lib) (f : L.Float64)
    (provider : String → HttpResult L.Body) (m : MoneyObject L)
    (code : String) (cur : Currency) (h : lookupCurrency code = some cur) :
    lookupCurrency "EUR" = none ∧
    Money L (.float64 f) "EUR" = .error (.errorsNew "Code not found.") ∧
    (m.Convert L provider "EUR").outcome = .error (.errorsNew "Code not found.") ∧
    (∃ mo, Money L (.float64 f) code = .ok mo ∧
      mo.String = cur.symbol ++ L.DecimalString (L.NewFromFloat f)) := by
  refine ⟨by decide, unknown_code_Money_error L _ "EUR" (by decide),
    unknown_code_Convert_error L provider m "EUR" (by decide), ?_⟩
  refine ⟨{ money := L.NewFromFloat f, currency := cur }, ?_, rfl⟩
  unfold Money
  rw [h]

theorem String_is_symbol_then_amount_witness :
    lookupCurrency "USD" = some { code := "USD", symbol := "$" } ∧
    (∃ mo, Money refLib (.float64 { value := 314, exp := -2 }) "USD" = .ok mo ∧
      mo.String = "$" ++ refLib.DecimalString (refLib.NewFromFloat { value := 314, exp := -2 })) ∧
    "$" ++ refLib.DecimalString (refLib.NewFromFloat { value := 314, exp := -2 }) = "$3.14" :=
  ⟨by decide,
    (String_is_symbol_then_amount refLib { value := 314, exp := -2 }
      (stubProvider none) tenUSD "USD" { code := "USD", symbol := "$" } (by decide)).2.2.2,
    by decide⟩

/-! ## Claims about `Convert` and the response of the provider -/

/-- C1: for a target code `t` in the registry, when the body the provider returns decodes
to an object whose `rates` member decodes to a mapping that has the rate `r` under `t`,
`Convert(t)` returns, after one request, the amount of the receiver multiplied by
`NewFromFloat(r)` with the registry entry of `t` as currency, whose code is `t`.  The
receiver is passed by value and is not part of the result. -/
theorem Convert_with_rate (L : Lib) (provider : String → HttpResult L.Body)
    (m : MoneyObject L) (t : String) (cur : Currency) (body : L.Body)
    (apiObj : List (String × Option L.RawMessage)) (raw : L.RawMessage)
    (rates : List (String × L.Float64)) (r : L.Float64)
    (ht : lookupCurrency t = some cur)
    (hp : provider (url m.currency.code t) = .body body)
    (ho : L.unmarshalObject body = .ok apiObj)
    (hr : apiObj.lookup "rates" = some (some raw))
    (hd : L.unmarshalRates raw = .ok rates)
    (hrate : rates.lookup t = some r) :
    m.Convert L provider t
      = { outcome := .ok { money := L.Mul m.money (L.NewFromFloat r), currency := cur },
          requests := [url m.currency.code t] } ∧
    cur.code = t ∧
    (L.Exact →
      L.val (L.Mul m.money (L.NewFromFloat r)) = L.val m.money * L.val (L.NewFromFloat r)) := by
  refine ⟨?_, lookupCurrency_code t cur ht, fun hL => hL.mul_val _ _⟩
  unfold MoneyObject.Convert
  rw [ht]
  simp only [hp, ho, mapIndex, hr, hd, hrate, Option.getD]

theorem Convert_with_rate_witness :
    lookupCurrency "GBP" = some { code := "GBP", symbol := "£" } ∧
    tenUSD.Convert refLib
        (stubProvider (some (.object
          [("base", .string "USD"), ("rates", .object [("GBP", .number ⟨5, -1⟩)])]))) "GBP"
      = { outcome := .ok { money := refLib.Mul tenUSD.money (refLib.NewFromFloat ⟨5, -1⟩),
                           currency := { code := "GBP", symbol := "£" } },
          requests := [url tenUSD.currency.code "GBP"] } ∧
    refLib.Mul tenUSD.money (refLib.NewFromFloat ⟨5, -1⟩) = { value := 50, exp := -1 } ∧
    Dec.render { value := 50, exp := -1 } = "5" :=
  ⟨by decide,
    (Convert_with_rate refLib
      (stubProvider (some (.object
        [("base", .string "USD"), ("rates", .object [("GBP", .number ⟨5, -1⟩)])])))
      tenUSD "GBP" { code := "GBP", symbol := "£" }
      (some (.object [("base", .string "USD"), ("rates", .object [("GBP", .number ⟨5, -1⟩)])]))
      [("rates", some (.object [("GBP", .number ⟨5, -1⟩)])), ("base", some (.string "USD"))]
      (.object [("GBP", .number ⟨5, -1⟩)])
      [("GBP", ⟨5, -1⟩)] ⟨5, -1⟩
      (by decide) rfl rfl rfl rfl rfl).1,
    rfl, by decide⟩

/-- C5: for a target code `t` in the registry, when the body the provider returns decodes
to an object whose `rates` member decodes to a mapping without the key `t` (the empty
mapping included), `Convert(t)` returns no error: the rate is the zero value of float64
and the result has the registry entry of `t` as currency and, the decimal library being
exact, an amount equal to zero. -/
theorem Convert_missing_rate (L : Lib) (provider : String → HttpResult L.Body)
    (m : MoneyObject L) (t : String) (cur : Currency) (body : L.Body)
    (apiObj : List (String × Option L.RawMessage)) (raw : L.RawMessage)
    (rates : List (String × L.Float64))
    (ht : lookupCurrency t = some cur)
    (hp : provider (url m.currency.code t) = .body body)
    (ho : L.unmarshalObject body = .ok apiObj)
    (hr : apiObj.lookup "rates" = some (some raw))
    (hd : L.unmarshalRates raw = .ok rates)
    (hmiss : rates.lookup t = none) :
    m.Convert L provider t
      = { outcome := .ok { money := L.Mul m.money (L.NewFromFloat (L.float64OfInteger 0)),
                           currency := cur },
          requests := [url m.currency.code t] } ∧
    (L.Exact → L.val (L.Mul m.money (L.NewFromFloat (L.float64OfInteger 0))) = 0) := by
  constructor
  · unfold MoneyObject.Convert
    rw [ht]
    simp only [hp, ho, mapIndex, hr, hd, hmiss, Option.getD]
  · intro hL
    rw [hL.mul_val, hL.newFromFloat_integer 0 (by decide)]
    simp

theorem Convert_missing_rate_witness :
    lookupCurrency "GBP" = some { code := "GBP", symbol := "£" } ∧
    refLib.Exact ∧
    tenUSD.Convert refLib (stubProvider (some (.object [("rates", .object [])]))) "GBP"
      = { outcome := .ok { money := refLib.Mul tenUSD.money
                             (refLib.NewFromFloat (refLib.float64OfInteger 0)),
                           currency := { code := "GBP", symbol := "£" } },
          requests := [url tenUSD.currency.code "GBP"] } ∧
    refLib.val (refLib.Mul tenUSD.money (refLib.NewFromFloat (refLib.float64OfInteger 0)))
      = 0 :=
  have hw := Convert_missing_rate refLib
    (stubProvider (some (.object [("rates", .object [])])))
    tenUSD "GBP" { code := "GBP", symbol := "£" }
    (some (.object [("rates", .object [])]))
    [("rates", some (.object []))] (.object []) []
    (by decide) rfl rfl rfl rfl rfl
  ⟨by decide, refLib_exact, hw.1, hw.2 refLib_exact⟩

theorem Convert_nil_rates_panics (L : Lib) (provider : String → HttpResult L.Body)
    (m : MoneyObject L) (t : String) (cur : Currency) (body : L.Body)
    (apiObj : List (String × Option L.RawMessage))
    (ht : lookupCurrency t = some cur)
    (hp : provider (url m.currency.code t) = .body body)
    (ho : L.unmarshalObject body = .ok apiObj)
    (hr : mapIndex none apiObj "rates" = none) :
    m.Convert L provider t = { outcome := .panic, requests := [url m.currency.code t] } := by
  unfold MoneyObject.Convert
  rw [ht]
  simp only [hp, ho, hr]

/-- C3 fails on the code: with the body `{"base":"USD"}`, valid JSON without a `rates`
member, `Convert("GBP")` on `10 USD` makes its request and then panics on the nil pointer
`apiObj["rates"]`; it returns no error.  A body that is not JSON, and a `rates` member
that is no mapping of numbers, are returned as errors. -/
theorem Convert_without_rates_panics :
    tenUSD.Convert refLib (stubProvider (some (.object [("base", .string "USD")]))) "GBP"
      = { outcome := .panic,
          requests := ["https://api.fixer.io/latest?base=USD&symbols=GBP"] } ∧
    (tenUSD.Convert refLib (stubProvider (some (.object [("rates", .null)]))) "GBP").outcome
      = .panic ∧
    (tenUSD.Convert refLib (stubProvider none) "GBP").outcome
      = .error (.jsonUnmarshal "invalid character looking for beginning of value") ∧
    (tenUSD.Convert refLib
        (stubProvider (some (.object [("rates", .string "none")]))) "GBP").outcome
      = .error (.jsonUnmarshal
          "json: cannot unmarshal into Go value of type map[string]float64") := by
  refine ⟨?_, ?_, rfl, rfl⟩
  · exact Convert_nil_rates_panics refLib _ tenUSD "GBP" { code := "GBP", symbol := "£" }
      (some (.object [("base", .string "USD")])) [("base", some (.string "USD"))]
      (by decide) rfl rfl rfl
  · exact congrArg Run.outcome
      (Convert_nil_rates_panics refLib _ tenUSD "GBP" { code := "GBP", symbol := "£" }
        (some (.object [("rates", .null)])) [("rates", none)]
        (by decide) rfl rfl rfl)

end GoCurrency
